import Mathlib

/-!
Verification development for the venom dark-web crawler
(src/venom/crawler.py, src/venom/fetch.py).

The Python code is shallowly embedded: the pure extraction helpers become
Lean functions on strings and token lists, the frontier (queue / seen /
searched) becomes an explicit state record threaded through each operation,
and the run loops become fuel-indexed step functions.  Effects on the data
file and on the network are reified as lists of write/effect events; a
Python exception escaping a function is reified as a Boolean "raised" flag
or an Except value.
-/

namespace Venom

/-! ### Bitcoin address recognizer

Embedding of the regular expression r"(bc1|[13])[a-zA-Z0-9]\x7b25,61\x7d"
used with re.fullmatch both in DarkCrawler.btc_address_search
(src/venom/crawler.py line 249) and in is_valid_btc_address
(src/venom/fetch.py line 13). -/

/-- Membership in the regex character class [a-zA-Z0-9] (ASCII alphanumeric). -/
def isAlnumChar (c : Char) : Bool :=
  ('a' ≤ c && c ≤ 'z') || ('A' ≤ c && c ≤ 'Z') || ('0' ≤ c && c ≤ '9')

/-- Tail of the pattern: 25 to 61 characters from [a-zA-Z0-9], running to the
end of the token (re.fullmatch anchors both ends). -/
def btcTail (r : List Char) : Bool :=
  decide (25 ≤ r.length) && decide (r.length ≤ 61) && r.all isAlnumChar

/-- Whole-token match of (bc1|[13])[a-zA-Z0-9]\x7b25,61\x7d: either the token
starts with "bc1" and the remainder is a valid tail, or it starts with '1' or
'3' and the remainder is a valid tail. -/
def btcFullmatchL (s : List Char) : Bool :=
  (decide (s.take 3 = ['b', 'c', '1']) && btcTail (s.drop 3))
    || ((decide (s.take 1 = ['1']) || decide (s.take 1 = ['3'])) && btcTail (s.drop 1))

/-- Embedding of is_valid_btc_address (src/venom/fetch.py): the full-token
regex match on the whole argument. -/
def is_valid_btc_address (addr : String) : Bool :=
  btcFullmatchL addr.data

/-- Embedding of DarkCrawler.btc_address_search (src/venom/crawler.py
lines 244-251): None on a falsy (empty) argument, otherwise the matched
group of the fullmatch, which is the whole token, or None when it fails. -/
def btc_address_search (text : String) : Option String :=
  if text.data = [] then none
  else if btcFullmatchL text.data then some text else none

/-- The payment-address grammar exactly as the specification words it: the
token starts with "bc1", "1" or "3", followed by 25 to 61 alphanumeric
characters, with total token length between 26 and 62, as a full-token
match. -/
def specBtcGrammarC3 (s : List Char) : Bool :=
  ((decide (s.take 3 = ['b', 'c', '1']) && btcTail (s.drop 3))
    || ((decide (s.take 1 = ['1']) || decide (s.take 1 = ['3'])) && btcTail (s.drop 1)))
  && decide (26 ≤ s.length) && decide (s.length ≤ 62)

/-- The amended grammar: a token matches iff it is "bc1" followed by 25-61
alphanumerics (total length 28-64), or '1' or '3' followed by 25-61
alphanumerics (total length 26-62). -/
def btcGrammarAmended (s : List Char) : Prop :=
  (∃ r, s = 'b' :: 'c' :: '1' :: r ∧
      25 ≤ r.length ∧ r.length ≤ 61 ∧ r.all isAlnumChar = true)
  ∨ (∃ c r, s = c :: r ∧ (c = '1' ∨ c = '3') ∧
      25 ≤ r.length ∧ r.length ≤ 61 ∧ r.all isAlnumChar = true)

/-- A token accepted by the regex but rejected by the spec's stated grammar:
"bc1" followed by 60 alphanumerics has total length 63, outside the spec's
26-62 window. -/
def cexC3 : List Char := 'b' :: 'c' :: '1' :: List.replicate 60 'a'

/-- Claim C3, counterexample: the token "bc1" ++ 60 * 'a' (length 63) is
accepted by the recognizer re.fullmatch(r"(bc1|[13])[a-zA-Z0-9]\x7b25,61\x7d")
but is rejected by the claim's grammar, whose "total token length 26-62"
bound it exceeds.  So acceptance is not equivalent to the claim's grammar. -/
theorem C3_btc_grammar_counterexample :
    btcFullmatchL cexC3 = true ∧ specBtcGrammarC3 cexC3 = false := by
  constructor <;> decide

/-- Claim C3, amended: a token is accepted by the recognizer iff it is "bc1"
followed by 25-61 alphanumerics (total length 28-64) or '1' or '3' followed
by 25-61 alphanumerics (total length 26-62), as a full-token match; in
particular the two sample addresses match and "0xAbC123" and a 20-character
token starting with '1' do not. -/
theorem C3_btc_grammar_amended :
    (∀ s : List Char, btcFullmatchL s = true ↔ btcGrammarAmended s)
    ∧ is_valid_btc_address "1A1zP1eP5QGefi2DMPTfTL5SLmv7DivfNa" = true
    ∧ is_valid_btc_address "bc1qar0srrr7xfkvy5l643lydnw9re59gtzzwf5mdq" = true
    ∧ is_valid_btc_address "0xAbC123" = false
    ∧ is_valid_btc_address "1aaaaaaaaaaaaaaaaaaa" = false := by
  refine ⟨?_, by decide, by decide, by decide, by decide⟩
  intro s
  constructor
  · intro h
    rcases Bool.or_eq_true _ _ |>.mp h with h1 | h2
    · rcases Bool.and_eq_true _ _ |>.mp h1 with ⟨ht, htl⟩
      have ht' : s.take 3 = ['b', 'c', '1'] := of_decide_eq_true ht
      have hs : s = 'b' :: 'c' :: '1' :: s.drop 3 := by
        conv_lhs => rw [← List.take_append_drop 3 s]
        rw [ht']
        rfl
      refine Or.inl ⟨s.drop 3, hs, ?_, ?_, ?_⟩
      · exact of_decide_eq_true (Bool.and_eq_true _ _ |>.mp
          (Bool.and_eq_true _ _ |>.mp htl).1).1
      · exact of_decide_eq_true (Bool.and_eq_true _ _ |>.mp
          (Bool.and_eq_true _ _ |>.mp htl).1).2
      · exact (Bool.and_eq_true _ _ |>.mp htl).2
    · rcases Bool.and_eq_true _ _ |>.mp h2 with ⟨ht, htl⟩
      have hc : s.take 1 = ['1'] ∨ s.take 1 = ['3'] := by
        rcases Bool.or_eq_true _ _ |>.mp ht with h | h
        · exact Or.inl (of_decide_eq_true h)
        · exact Or.inr (of_decide_eq_true h)
      have hlen : (25 ≤ (s.drop 1).length ∧ (s.drop 1).length ≤ 61)
          ∧ (s.drop 1).all isAlnumChar = true := by
        refine ⟨⟨?_, ?_⟩, (Bool.and_eq_true _ _ |>.mp htl).2⟩
        · exact of_decide_eq_true (Bool.and_eq_true _ _ |>.mp
            (Bool.and_eq_true _ _ |>.mp htl).1).1
        · exact of_decide_eq_true (Bool.and_eq_true _ _ |>.mp
            (Bool.and_eq_true _ _ |>.mp htl).1).2
      rcases hc with hc | hc
      · have hs : s = '1' :: s.drop 1 := by
          conv_lhs => rw [← List.take_append_drop 1 s]
          rw [hc]
          rfl
        exact Or.inr ⟨'1', s.drop 1, hs, Or.inl rfl, hlen.1.1, hlen.1.2, hlen.2⟩
      · have hs : s = '3' :: s.drop 1 := by
          conv_lhs => rw [← List.take_append_drop 1 s]
          rw [hc]
          rfl
        exact Or.inr ⟨'3', s.drop 1, hs, Or.inr rfl, hlen.1.1, hlen.1.2, hlen.2⟩
  · intro h
    rcases h with ⟨r, rfl, h1, h2, h3⟩ | ⟨c, r, rfl, hc, h1, h2, h3⟩
    · apply Bool.or_eq_true _ _ |>.mpr
      refine Or.inl (Bool.and_eq_true _ _ |>.mpr ⟨decide_eq_true rfl, ?_⟩)
      show btcTail r = true
      unfold btcTail
      rw [decide_eq_true h1, decide_eq_true h2, h3]
      rfl
    · apply Bool.or_eq_true _ _ |>.mpr
      refine Or.inr (Bool.and_eq_true _ _ |>.mpr ⟨?_, ?_⟩)
      · rcases hc with rfl | rfl
        · exact Bool.or_eq_true _ _ |>.mpr (Or.inl (decide_eq_true rfl))
        · exact Bool.or_eq_true _ _ |>.mpr (Or.inr (decide_eq_true rfl))
      · show btcTail r = true
        unfold btcTail
        rw [decide_eq_true h1, decide_eq_true h2, h3]
        rfl

/-! ### Payment-address extraction with link suppression

Embedding of the candidate-collection loop of
DarkCrawler._scrape_btc_addresses (src/venom/crawler.py lines 214-227):
the page's visible text is already split into whitespace-delimited tokens
(url_text split on the separator and then on whitespace), the hrefs of all
anchors form the links set, and a token is kept iff btc_address_search
accepts it and the token plus ".onion" is not among the links. -/

/-- Python set.add on a set represented as a duplicate-free list: a no-op when
the element is present, otherwise append. -/
def insertPySet (a : String) (l : List String) : List String :=
  if a ∈ l then l else l ++ [a]

/-- The btc_addresses set built by DarkCrawler._scrape_btc_addresses: fold the
per-token test over the token list, skipping tokens the recognizer rejects and
candidates that reappear among the page's links with ".onion" appended. -/
def scrape_btc_addresses_core (tokens links : List String) : List String :=
  tokens.foldl
    (fun acc t =>
      match btc_address_search t with
      | none => acc
      | some btc => if (btc ++ ".onion") ∈ links then acc else insertPySet btc acc)
    []

theorem btc_address_search_eq {t b : String} (h : btc_address_search t = some b) :
    b = t := by
  unfold btc_address_search at h
  split at h
  · exact absurd h (by simp)
  · split at h
    · exact (Option.some.injEq _ _ ▸ h).symm
    · exact absurd h (by simp)

theorem scrape_btc_addresses_core_aux (links : List String) (t : String)
    (hmem : (t ++ ".onion") ∈ links) :
    ∀ (tokens acc : List String), t ∉ acc →
      t ∉ tokens.foldl
        (fun acc tok =>
          match btc_address_search tok with
          | none => acc
          | some btc => if (btc ++ ".onion") ∈ links then acc else insertPySet btc acc)
        acc := by
  intro tokens
  induction tokens with
  | nil => intro acc hacc; simpa using hacc
  | cons tok rest ih =>
    intro acc hacc
    simp only [List.foldl_cons]
    apply ih
    cases hsearch : btc_address_search tok with
    | none => simpa using hacc
    | some btc =>
      simp only
      split
      · exact hacc
      · rename_i hnl
        have hb : btc = tok := btc_address_search_eq hsearch
        unfold insertPySet
        split
        · exact hacc
        · intro hmem'
          rcases List.mem_append.mp hmem' with h | h
          · exact hacc h
          · have : t = btc := by simpa using h
            exact hnl (this ▸ hmem)

/-- Claim C4: a payment-address candidate that also appears among the page's
links with ".onion" appended is excluded from the extracted set; in
particular a page whose single text token is a payment-address-shaped string
and whose single link is that token plus ".onion" yields no payment
addresses. -/
theorem C4_btc_link_suppression :
    (∀ tokens links t, (t ++ ".onion") ∈ links →
      t ∉ scrape_btc_addresses_core tokens links)
    ∧ scrape_btc_addresses_core ["1A1zP1eP5QGefi2DMPTfTL5SLmv7DivfNa"]
        ["1A1zP1eP5QGefi2DMPTfTL5SLmv7DivfNa" ++ ".onion"] = [] := by
  constructor
  · intro tokens links t hmem
    exact scrape_btc_addresses_core_aux links t hmem tokens [] (by simp)
  · decide

/-- Claim C4 witness: the suppression theorem applied to the concrete page
with one payment-address-shaped token and that token plus ".onion" as the
only link. -/
theorem C4_btc_link_suppression_witness :
    "1A1zP1eP5QGefi2DMPTfTL5SLmv7DivfNa" ∉
      scrape_btc_addresses_core ["1A1zP1eP5QGefi2DMPTfTL5SLmv7DivfNa"]
        ["1A1zP1eP5QGefi2DMPTfTL5SLmv7DivfNa" ++ ".onion"] :=
  C4_btc_link_suppression.1 _ _ _ (by decide)

/-! ### Frontier state and the multithreaded enqueue check

Embedding of the shared crawl state of MultiThreadedDarkCrawler: the pending
queue (collections.deque), the seen set and the searched set (Python sets,
represented as duplicate-free lists).  MultiThreadedDarkCrawler._scrape_links
(src/venom/crawler.py lines 368-375) runs, for each discovered link, the
check-and-insert `if onion_addr and self._is_new_onion_address(onion_addr):
seen.add; queue.append` under self.queue_lock, so across any interleaving of
concurrent callers the run is a serialization of atomic tryEnqueue steps;
the model therefore quantifies over an arbitrary list of fed addresses. -/

structure Frontier where
  queue : List String
  seen : List String
  searched : List String
deriving DecidableEq

/-- One locked iteration of MultiThreadedDarkCrawler._scrape_links: skip a
falsy (empty) extraction result, test membership in seen
(_is_new_onion_address, lines 345-346) and on success insert into seen and
append to the queue. -/
def tryEnqueue (st : Frontier) (addr : String) : Frontier :=
  if addr ≠ "" ∧ addr ∉ st.seen then
    ⟨st.queue ++ [addr], addr :: st.seen, st.searched⟩
  else st

/-- Folding the locked enqueue check over a serialized list of discovered
links. -/
def mt_scrape_links (st : Frontier) (l : List String) : Frontier :=
  l.foldl tryEnqueue st

/-- Observer for the run: the sublist of fed addresses the enqueue check
admits, in admission order. -/
def admittedBy : Frontier → List String → List String
  | _, [] => []
  | st, a :: rest =>
    if a ≠ "" ∧ a ∉ st.seen then a :: admittedBy (tryEnqueue st a) rest
    else admittedBy (tryEnqueue st a) rest

theorem tryEnqueue_searched (st : Frontier) (a : String) :
    (tryEnqueue st a).searched = st.searched := by
  unfold tryEnqueue; split <;> rfl

theorem mt_scrape_links_queue (st : Frontier) (l : List String) :
    (mt_scrape_links st l).queue = st.queue ++ admittedBy st l := by
  induction l generalizing st with
  | nil => simp [mt_scrape_links, admittedBy]
  | cons a rest ih =>
    by_cases hcond : a ≠ "" ∧ a ∉ st.seen
    · have hstep : tryEnqueue st a
          = ⟨st.queue ++ [a], a :: st.seen, st.searched⟩ := by
        simp [tryEnqueue, hcond]
      simp only [mt_scrape_links, List.foldl_cons, admittedBy, if_pos hcond]
      rw [show rest.foldl tryEnqueue (tryEnqueue st a)
            = mt_scrape_links (tryEnqueue st a) rest from rfl, ih, hstep]
      simp
    · have hstep : tryEnqueue st a = st := by simp [tryEnqueue, hcond]
      simp only [mt_scrape_links, List.foldl_cons, admittedBy, if_neg hcond]
      rw [show rest.foldl tryEnqueue (tryEnqueue st a)
            = mt_scrape_links (tryEnqueue st a) rest from rfl, ih, hstep]

theorem mt_scrape_links_seen (st : Frontier) (l : List String) (x : String) :
    x ∈ (mt_scrape_links st l).seen ↔ x ∈ st.seen ∨ (x ∈ l ∧ x ≠ "") := by
  induction l generalizing st with
  | nil => simp [mt_scrape_links]
  | cons a rest ih =>
    simp only [mt_scrape_links, List.foldl_cons]
    rw [show rest.foldl tryEnqueue (tryEnqueue st a)
          = mt_scrape_links (tryEnqueue st a) rest from rfl, ih]
    by_cases hcond : a ≠ "" ∧ a ∉ st.seen
    · have hstep : tryEnqueue st a
          = ⟨st.queue ++ [a], a :: st.seen, st.searched⟩ := by
        simp [tryEnqueue, hcond]
      rw [hstep]
      simp only [List.mem_cons]
      constructor
      · rintro ((rfl | h) | ⟨h1, h2⟩)
        · exact Or.inr ⟨Or.inl rfl, hcond.1⟩
        · exact Or.inl h
        · exact Or.inr ⟨Or.inr h1, h2⟩
      · rintro (h | ⟨(rfl | h1), h2⟩)
        · exact Or.inl (Or.inr h)
        · exact Or.inl (Or.inl rfl)
        · exact Or.inr ⟨h1, h2⟩
    · have hstep : tryEnqueue st a = st := by simp [tryEnqueue, hcond]
      rw [hstep]
      simp only [not_and_or, ne_eq, not_not] at hcond
      simp only [List.mem_cons]
      constructor
      · rintro (h | ⟨h1, h2⟩)
        · exact Or.inl h
        · exact Or.inr ⟨Or.inr h1, h2⟩
      · rintro (h | ⟨(rfl | h1), h2⟩)
        · exact Or.inl h
        · rcases hcond with h' | h'
          · exact absurd h' h2
          · exact Or.inl h'
        · exact Or.inr ⟨h1, h2⟩

theorem admittedBy_fresh (st : Frontier) (l : List String) :
    ∀ x ∈ admittedBy st l, x ∉ st.seen := by
  induction l generalizing st with
  | nil => simp [admittedBy]
  | cons a rest ih =>
    intro x hx
    by_cases hcond : a ≠ "" ∧ a ∉ st.seen
    · rw [admittedBy, if_pos hcond] at hx
      rcases List.mem_cons.mp hx with rfl | hx'
      · exact hcond.2
      · have hstep : tryEnqueue st a
            = ⟨st.queue ++ [a], a :: st.seen, st.searched⟩ := by
          simp [tryEnqueue, hcond]
        have := ih (tryEnqueue st a) x hx'
        rw [hstep] at this
        intro hxseen
        exact this (List.mem_cons_of_mem _ hxseen)
    · rw [admittedBy, if_neg hcond] at hx
      have hstep : tryEnqueue st a = st := by simp [tryEnqueue, hcond]
      have := ih (tryEnqueue st a) x hx
      rwa [hstep] at this

theorem admittedBy_nodup (st : Frontier) (l : List String) :
    (admittedBy st l).Nodup := by
  induction l generalizing st with
  | nil => simp [admittedBy]
  | cons a rest ih =>
    by_cases hcond : a ≠ "" ∧ a ∉ st.seen
    · rw [admittedBy, if_pos hcond, List.nodup_cons]
      refine ⟨?_, ih (tryEnqueue st a)⟩
      intro hmem
      have := admittedBy_fresh (tryEnqueue st a) rest a hmem
      have hstep : tryEnqueue st a
          = ⟨st.queue ++ [a], a :: st.seen, st.searched⟩ := by
        simp [tryEnqueue, hcond]
      rw [hstep] at this
      exact this (by simp)
    · rw [admittedBy, if_neg hcond]
      exact ih (tryEnqueue st a)

/-- Claim C1: serializing any interleaving of discovered links fed to the
locked enqueue check of MultiThreadedDarkCrawler._scrape_links (each
membership test plus seen/queue insertion is one step, as it runs under
queue_lock), starting from the fresh-run frontier whose seen set is empty:
the seen set afterwards holds exactly the distinct addresses ever fed in,
the queue grows exactly by the admitted addresses, and no address is
admitted twice. -/
theorem C1_frontier_dedup (fed q0 : List String)
    (h : ∀ a ∈ fed, a ≠ "") :
    (∀ x, x ∈ (mt_scrape_links ⟨q0, [], []⟩ fed).seen ↔ x ∈ fed)
    ∧ (mt_scrape_links ⟨q0, [], []⟩ fed).queue
        = q0 ++ admittedBy ⟨q0, [], []⟩ fed
    ∧ (admittedBy ⟨q0, [], []⟩ fed).Nodup := by
  refine ⟨?_, mt_scrape_links_queue _ _, admittedBy_nodup _ _⟩
  intro x
  rw [mt_scrape_links_seen]
  simp only [List.not_mem_nil, false_or]
  constructor
  · exact fun hx => hx.1
  · exact fun hx => ⟨hx, h x hx⟩

/-- Claim C1 witness: the dedup theorem applied to a concrete serialized run
feeding the same onion address twice. -/
theorem C1_frontier_dedup_witness :
    (∀ a ∈ ["http://aaaa.onion", "http://bbbb.onion", "http://aaaa.onion"],
        a ≠ "")
    ∧ ((∀ x, x ∈ (mt_scrape_links ⟨["http://seed.onion"], [], []⟩
          ["http://aaaa.onion", "http://bbbb.onion", "http://aaaa.onion"]).seen
          ↔ x ∈ ["http://aaaa.onion", "http://bbbb.onion", "http://aaaa.onion"])
      ∧ (mt_scrape_links ⟨["http://seed.onion"], [], []⟩
          ["http://aaaa.onion", "http://bbbb.onion", "http://aaaa.onion"]).queue
          = ["http://seed.onion"]
            ++ admittedBy ⟨["http://seed.onion"], [], []⟩
              ["http://aaaa.onion", "http://bbbb.onion", "http://aaaa.onion"]
      ∧ (admittedBy ⟨["http://seed.onion"], [], []⟩
          ["http://aaaa.onion", "http://bbbb.onion", "http://aaaa.onion"]).Nodup) :=
  ⟨by decide, C1_frontier_dedup _ _ (by decide)⟩

/-! ### Crawl records and the data file

Embedding of the strings the crawler appends to data.txt.  The four entry
kinds come from the four _write_data call sites inside the per-address path:
the success entry of DarkCrawler._scrape_btc_addresses (line 233), the V2
entry (lines 264/388), the exception entry (lines 274/398) and the HTTP
error entry (lines 283/407).  Python str() on a dict of strings is modelled
for payloads free of quote and backslash characters, which all tokens
produced by the recognizers satisfy. -/

inductive RecordVal where
  | success (btcAddrs : List String) (title : String)
  | v2
  | exn (kind : String)
  | httpError (code : Nat)
deriving DecidableEq

/-- Python repr of a plain string: surrounding single quotes. -/
def pyQuote (s : String) : String := "'" ++ s ++ "'"

/-- Python's ", "-separated rendering of list elements. -/
def commaSep : List String → String
  | [] => ""
  | [a] => a
  | a :: b :: rest => a ++ ", " ++ commaSep (b :: rest)

/-- The value part of a data-file entry: str() of the out_value dict for a
success, or the quoted status string for the three failure kinds. -/
def valStr : RecordVal → String
  | .success btcs title =>
      "\x7b'btc_addrs': [" ++ commaSep (btcs.map pyQuote) ++ "], 'title': '"
        ++ title ++ "'\x7d"
  | .v2 => "'V2 address (deprecated)'"
  | .exn k => "'Exception: " ++ k ++ "'"
  | .httpError c => "'HTTP error: " ++ Nat.repr c ++ "'"

/-- One data-file entry, the f-string "  '...': ...,\n" shared by all four
_write_data call sites. -/
def entryLine (addr : String) (v : RecordVal) : String :=
  "  '" ++ addr ++ "': " ++ valStr v ++ ",\n"

/-- The whole data file over a complete fresh run: the opening brace line
written by _setup_structs (line 172), the entries appended while crawling,
and the closing brace line written by _on_shutdown (line 336). -/
def data_file_contents (entries : List (String × RecordVal)) : String :=
  "\x7b\n" ++ String.join (entries.map fun e => entryLine e.1 e.2) ++ "\x7d\n"

/-! ### scrape_url

Embedding of MultiThreadedDarkCrawler.scrape_url (src/venom/crawler.py
lines 377-407) together with the inherited DarkCrawler._scrape_btc_addresses
success path.  The page markup is abstracted to what the extraction code
reads from it: the whitespace-delimited visible-text tokens, the link hrefs,
and the value of bsoup.title.string, which is absent (None, making the
attribute chain raise) when the page has no usable title element.  The
network is an oracle: an exception kind or a status code with a page. -/

structure Page where
  textTokens : List String
  links : List String
  titleStr : Option String
deriving DecidableEq

inductive FetchOutcome where
  | exn (kind : String)
  | http (code : Nat) (page : Page)
deriving DecidableEq

/-- Outcome of one scrape_url call: the data-file lines written, the number
of network requests issued, and whether an uncaught exception escaped. -/
structure ScrapeResult where
  dataWrites : List String
  networkCalls : Nat
  raised : Bool
deriving DecidableEq

/-- Python str.strip: drop leading and trailing whitespace. -/
def pyStrip (s : String) : String :=
  ⟨((s.data.dropWhile Char.isWhitespace).reverse.dropWhile
      Char.isWhitespace).reverse⟩

/-- The title cleanup of _scrape_btc_addresses line 231:
title.replace('\n', '').strip(). -/
def cleanupTitle (t : String) : String :=
  pyStrip ⟨t.data.filter (fun c => c ≠ '\n')⟩

/-- The V2-address shortcut test of scrape_url lines 384:
url.endswith(".onion") and len(url) <= 30. -/
def isV2Address (url : String) : Bool :=
  ".onion".data.isSuffixOf url.data && decide (url.data.length ≤ 30)

/-- The write/raise behavior of _scrape_btc_addresses (lines 214-233): build
the candidate set, then build out_value; when bsoup.title.string is absent
the attribute chain raises AttributeError before anything is written. -/
def scrape_btc_addresses_write (page : Page) (url : String) :
    List String × Bool :=
  match page.titleStr with
  | none => ([], true)
  | some t =>
      ([entryLine url
          (.success (scrape_btc_addresses_core page.textTokens page.links)
            (cleanupTitle t))], false)

/-- MultiThreadedDarkCrawler.scrape_url: the V2 shortcut writes its record
and returns without touching the network; otherwise one request is issued
and the outcome is recorded, except that the 200 path defers to
_scrape_btc_addresses, which can raise without writing. -/
def mt_scrape_url (url : String) (fetch : FetchOutcome) : ScrapeResult :=
  if isV2Address url then ⟨[entryLine url .v2], 0, false⟩
  else
    match fetch with
    | .exn k => ⟨[entryLine url (.exn k)], 1, false⟩
    | .http code page =>
      if code = 200 then
        let w := scrape_btc_addresses_write page url
        ⟨w.1, 1, w.2⟩
      else ⟨[entryLine url (.httpError code)], 1, false⟩

/-- Claim C2, divergence witness: a processed address whose fetched page has
status 200 but no title element produces zero data-file records, because
bsoup.title.string raises AttributeError outside scrape_url's try block;
the same page with a title, and a failed fetch, each produce exactly one
record. -/
theorem C2_record_completeness_bug :
    (mt_scrape_url "http://no-title-page-aaaaaaaaaaaaa.onion"
        (.http 200 ⟨["hello", "world"], [], none⟩)).dataWrites = []
    ∧ (mt_scrape_url "http://no-title-page-aaaaaaaaaaaaa.onion"
        (.http 200 ⟨["hello", "world"], [], none⟩)).raised = true
    ∧ (mt_scrape_url "http://no-title-page-aaaaaaaaaaaaa.onion"
        (.http 200 ⟨["hello", "world"], [], some "Test"⟩)).dataWrites.length = 1
    ∧ (mt_scrape_url "http://no-title-page-aaaaaaaaaaaaa.onion"
        (.exn "ConnectionError")).dataWrites.length = 1
    ∧ (mt_scrape_url "http://no-title-page-aaaaaaaaaaaaa.onion"
        (.http 404 ⟨["hello", "world"], [], none⟩)).dataWrites.length = 1 := by
  refine ⟨?_, ?_, ?_, ?_, ?_⟩ <;> decide

/-- Claim C5: an address ending in ".onion" whose length is at most 30 is
recorded as the V2-deprecated entry and produces zero network requests,
regardless of what the network would have returned; an address of length 50
ending in ".onion" issues exactly one network request on every fetch
outcome. -/
theorem C5_v2_shortcut :
    (∀ url fetch, ".onion".data.isSuffixOf url.data = true →
      url.data.length ≤ 30 →
      mt_scrape_url url fetch = ⟨[entryLine url .v2], 0, false⟩)
    ∧ (∀ fetch,
        (mt_scrape_url "http://abcdefghijklmnopqrstuvwxyzabcdefghijk.onion"
          fetch).networkCalls = 1) := by
  constructor
  · intro url fetch h1 h2
    have hv : isV2Address url = true := by
      simp only [isV2Address, h1, Bool.true_and, decide_eq_true_eq]
      exact h2
    simp [mt_scrape_url, hv]
  · intro fetch
    have hv : isV2Address "http://abcdefghijklmnopqrstuvwxyzabcdefghijk.onion"
        = false := by decide
    cases fetch with
    | exn k => simp [mt_scrape_url, hv]
    | http code page =>
      by_cases hc : code = 200
      · simp [mt_scrape_url, hv, hc]
      · simp [mt_scrape_url, hv, hc]

/-- Claim C5 witness: the shortcut theorem applied to the 29-character
address "http://abcdefghijklmnop.onion". -/
theorem C5_v2_shortcut_witness :
    mt_scrape_url "http://abcdefghijklmnop.onion" (.exn "Timeout")
      = ⟨[entryLine "http://abcdefghijklmnop.onion" .v2], 0, false⟩ :=
  C5_v2_shortcut.1 _ _ (by decide) (by decide)

/-! ### Resume path

DarkCrawler._load_prev_crawl (src/venom/crawler.py lines 184-192) first has
the base class read the two savestate lines into queue and searched, then
reopens self.output_path to rewrite the prior data file without its last
line; MultiThreadedDarkCrawler._load_prev_crawl (lines 341-343) then sets
seen = set(queue) | searched.  The attribute environment of the crawler
object is modelled as the list of attribute names assigned anywhere on the
execution path (BaseCrawler.__init__, DarkCrawler.__init__,
MultiThreadedDarkCrawler.__init__ and _setup_structs); reading an attribute
outside it raises AttributeError. -/

def baseInitAttrs : List String :=
  ["seeds", "search_limit", "output_dir", "resume_path",
   "data_path", "log_path", "savestate_path"]

def darkInitAttrs : List String :=
  baseInitAttrs ++ ["ahmia_keyword_path", "proxies", "request_timeout_after"]

def mtInitAttrs : List String := darkInitAttrs ++ ["nr_of_threads"]

def mtSetupAttrs : List String :=
  mtInitAttrs ++ ["seen", "write_data_lock", "write_log_lock", "queue_lock",
    "log_lock", "executor", "queue", "searched"]

/-- DarkCrawler._load_prev_crawl after the base class has parsed the two
savestate lines into savedQueue and savedSearched: reading
self.output_path succeeds only if that attribute was ever assigned, and
then the prior data file loses its last line and the multithreaded
subclass rebuilds seen as queue union searched. -/
def dark_load_prev_crawl (attrs : List String)
    (savedQueue savedSearched : List String)
    (dataFileLines : List String) : Except String (Frontier × List String) :=
  if "output_path" ∈ attrs then
    .ok (⟨savedQueue, savedQueue ++ savedSearched, savedSearched⟩,
      dataFileLines.dropLast)
  else .error "AttributeError: output_path"

/-- Claim C6, divergence witness: no class in the hierarchy ever assigns
output_path (the constructors assign data_path, log_path and
savestate_path), so every resume raises AttributeError inside
DarkCrawler._load_prev_crawl before the dangling closing marker can be
stripped. -/
theorem C6_resume_attribute_bug :
    ("output_path" ∉ mtSetupAttrs)
    ∧ (∀ savedQueue savedSearched dataFileLines : List String,
        dark_load_prev_crawl mtSetupAttrs savedQueue savedSearched
            dataFileLines
          = .error "AttributeError: output_path") := by
  refine ⟨by decide, ?_⟩
  intro q s df
  simp [dark_load_prev_crawl, (by decide : "output_path" ∉ mtSetupAttrs)]

/-! ### Fresh-run initialization

MultiThreadedDarkCrawler._setup_structs (src/venom/crawler.py lines
321-329) sets seen to the empty set and defers to
DarkCrawler._setup_structs (lines 165-175), which on a fresh run copies the
seed list into the queue, empties searched, writes the opening brace line,
and then, when a keyword path was given, runs _load_ahmia_seeds (lines
194-202): for each line of the file, the derived link is the Ahmia query
prefix plus the stripped keyword with spaces replaced by '+', appended to
the queue whenever it is not in searched. -/

def ahmiaLink : String := "https://ahmia.fi/search/?q="

/-- Python str.replace(' ', '+'). -/
def plusEncode (s : String) : String :=
  ⟨s.data.map (fun c => if c = ' ' then '+' else c)⟩

/-- The derived search-query address for one keyword-file line. -/
def deriveKw (line : String) : String := ahmiaLink ++ plusEncode (pyStrip line)

def load_ahmia_seeds (st : Frontier) (lines : List String) : Frontier :=
  lines.foldl
    (fun s ℓ =>
      if deriveKw ℓ ∈ s.searched then s
      else ⟨s.queue ++ [deriveKw ℓ], s.seen, s.searched⟩)
    st

def mt_setup_structs_fresh (seeds : List String)
    (kwLines : Option (List String)) : Frontier × List String :=
  let st : Frontier := ⟨seeds, [], []⟩
  match kwLines with
  | none => (st, ["\x7b\n"])
  | some ls => (load_ahmia_seeds st ls, ["\x7b\n"])

theorem load_ahmia_seeds_empty_searched (lines : List String)
    (q0 seen0 : List String) :
    load_ahmia_seeds ⟨q0, seen0, []⟩ lines
      = ⟨q0 ++ lines.map deriveKw, seen0, []⟩ := by
  induction lines generalizing q0 with
  | nil => simp [load_ahmia_seeds]
  | cons ℓ rest ih =>
    have h1 : load_ahmia_seeds ⟨q0, seen0, []⟩ (ℓ :: rest)
        = load_ahmia_seeds ⟨q0 ++ [deriveKw ℓ], seen0, []⟩ rest := by
      simp [load_ahmia_seeds]
    rw [h1, ih]
    simp [List.map_cons, List.append_assoc]

/-- Claim C7, counterexample: a fresh run with the same seed twice admits it
to the pending queue twice and leaves the seen set empty, so seeds are not
subject to the claimed dedup check and are not added to Seen on admission. -/
theorem C7_fresh_init_counterexample :
    ((mt_setup_structs_fresh ["http://aaaa.onion", "http://aaaa.onion"]
        none).1.queue.count "http://aaaa.onion" = 2)
    ∧ (mt_setup_structs_fresh ["http://aaaa.onion", "http://aaaa.onion"]
        none).1.seen = [] := by
  constructor <;> decide

/-- Claim C7, amended: a fresh run copies the seed list into the pending
queue unconditionally (duplicates retained, nothing added to Seen), and
when a keyword file is given appends one derived address per line of the
file, empty lines included, each checked only against the Searched set,
which is empty on a fresh start, so the check never rejects; the seen and
searched sets are left empty, and the only data write of setup is the
opening brace line.  An empty keyword line derives the bare query prefix. -/
theorem C7_fresh_init_amended (seeds lines : List String) :
    (mt_setup_structs_fresh seeds (some lines)).1
      = ⟨seeds ++ lines.map deriveKw, [], []⟩
    ∧ (mt_setup_structs_fresh seeds none).1 = ⟨seeds, [], []⟩
    ∧ (mt_setup_structs_fresh seeds (some lines)).2 = ["\x7b\n"]
    ∧ deriveKw "\n" = ahmiaLink := by
  refine ⟨?_, rfl, rfl, by decide⟩
  simp only [mt_setup_structs_fresh]
  exact load_ahmia_seeds_empty_searched lines seeds []

/-! ### Run loops

Embedding of the run loops: BaseCrawler.crawl (src/venom/crawler.py lines
119-127) pops one address per iteration while the queue is nonempty,
stopping early when the search limit is reached, whereas
MultiThreadedDarkCrawler.crawl (lines 422-432) loops forever, each round
checking the limit and then handing the entire queue to the executor and
replacing it with an empty deque.  The search limit is a Nat or infinity
(math.inf), modelled as WithTop Nat.  The multithreaded loop is modelled in
its quiescent regime, which is what claim C9 is about: the pending queue is
empty and all submitted work has completed, so a round changes nothing and
the searched count stays fixed. -/

def mtLoopQuiescentHalts (limit : WithTop Nat) (searched : Nat) :
    Nat → Bool
  | 0 => false
  | fuel + 1 =>
    if limit ≤ (searched : WithTop Nat) then true
    else mtLoopQuiescentHalts limit searched fuel

structure BaseLoopState where
  queue : List String
  searched : Nat
deriving DecidableEq

/-- BaseCrawler.crawl's loop: exit when the queue is empty, then check the
limit, then scrape the popped head (scrapeStep abstracts one scrape_url
call, which may enqueue and mark searched). -/
def baseCrawlLoop (limit : WithTop Nat)
    (scrapeStep : String → BaseLoopState → BaseLoopState) :
    Nat → BaseLoopState → Option BaseLoopState
  | 0, _ => none
  | fuel + 1, s =>
    match s.queue with
    | [] => some s
    | u :: rest =>
      if limit ≤ (s.searched : WithTop Nat) then some s
      else baseCrawlLoop limit scrapeStep fuel (scrapeStep u ⟨rest, s.searched⟩)

/-- Claim C9: with the default search limit (infinity) the multithreaded run
loop never exits once the queue is empty and all work has completed — for
every fuel bound it is still running — while the base crawler's loop exits
immediately, returning its state, as soon as its queue is empty. -/
theorem C9_mt_loop_nontermination :
    (∀ searched fuel : Nat, mtLoopQuiescentHalts ⊤ searched fuel = false)
    ∧ (∀ (limit : WithTop Nat)
        (scrapeStep : String → BaseLoopState → BaseLoopState)
        (fuel : Nat) (s : BaseLoopState), s.queue = [] →
        baseCrawlLoop limit scrapeStep (fuel + 1) s = some s) := by
  constructor
  · intro searched fuel
    induction fuel with
    | zero => rfl
    | succ n ih =>
      have hns : ¬((⊤ : WithTop Nat) ≤ ((searched : Nat) : WithTop Nat)) := by
        simp [top_le_iff]
      simp only [mtLoopQuiescentHalts, if_neg hns]
      exact ih
  · intro limit scrapeStep fuel s h
    cases s with
    | mk q n =>
      simp only at h
      subst h
      simp [baseCrawlLoop]

/-- Claim C9 witness: the base loop applied to a concrete empty-queue state
exits at once with that state. -/
theorem C9_mt_loop_nontermination_witness :
    baseCrawlLoop ⊤ (fun _ s => s) 3 ⟨[], 7⟩ = some ⟨[], 7⟩ :=
  C9_mt_loop_nontermination.2 ⊤ (fun _ s => s) 2 ⟨[], 7⟩ rfl

/-! ### blockstream_fetch

Embedding of blockstream_fetch (src/venom/fetch.py lines 16-33): the
assertion on is_valid_btc_address runs before the URL is built; on success
one requests.get is issued (resp models its result, None for a raised
exception) and the response is appended to the output file only on HTTP
200.  Effects are reified in order; the Boolean marks an AssertionError
escaping the call. -/

inductive FetchEffect where
  | networkGet (url : String)
  | fileAppend (path : String)
deriving DecidableEq

def blockstream_url (addr : String) : String :=
  "https://blockstream.info/api/address/" ++ addr

def blockstream_fetch (addr outputPath : String) (resp : Option Nat) :
    List FetchEffect × Bool :=
  if is_valid_btc_address addr then
    (FetchEffect.networkGet (blockstream_url addr)
        :: (if resp = some 200 then [FetchEffect.fileAppend outputPath]
            else []),
      false)
  else ([], true)

def isNetworkGet : FetchEffect → Bool
  | .networkGet _ => true
  | .fileAppend _ => false

def isFileAppend : FetchEffect → Bool
  | .networkGet _ => false
  | .fileAppend _ => true

/-- Claim C10: for a valid address the assertion passes, the first effect is
the single network lookup and a file append happens exactly on HTTP 200;
for an invalid address the call raises AssertionError with no network or
file effect at all. -/
theorem C10_blockstream_assert (addr path : String) (resp : Option Nat) :
    (is_valid_btc_address addr = true →
      (blockstream_fetch addr path resp).2 = false
      ∧ (blockstream_fetch addr path resp).1.countP isNetworkGet = 1
      ∧ ((blockstream_fetch addr path resp).1.countP isFileAppend
          = if resp = some 200 then 1 else 0)
      ∧ (blockstream_fetch addr path resp).1.head?
          = some (.networkGet (blockstream_url addr)))
    ∧ (is_valid_btc_address addr = false →
        blockstream_fetch addr path resp = ([], true)) := by
  constructor
  · intro hv
    refine ⟨?_, ?_, ?_, ?_⟩ <;>
      simp only [blockstream_fetch, hv, if_true] <;>
      by_cases h200 : resp = some 200 <;>
      simp [h200, List.countP_cons, isNetworkGet, isFileAppend]
  · intro hv
    simp [blockstream_fetch, hv]

/-- Claim C10 witness: the theorem applied to the valid sample address with
an HTTP 200 response and to the invalid token "0xAbC123". -/
theorem C10_blockstream_assert_witness :
    ((blockstream_fetch "1A1zP1eP5QGefi2DMPTfTL5SLmv7DivfNa"
        "blockstream.txt" (some 200)).2 = false
      ∧ (blockstream_fetch "1A1zP1eP5QGefi2DMPTfTL5SLmv7DivfNa"
          "blockstream.txt" (some 200)).1.countP isNetworkGet = 1
      ∧ ((blockstream_fetch "1A1zP1eP5QGefi2DMPTfTL5SLmv7DivfNa"
          "blockstream.txt" (some 200)).1.countP isFileAppend
            = if (some 200 : Option Nat) = some 200 then 1 else 0)
      ∧ (blockstream_fetch "1A1zP1eP5QGefi2DMPTfTL5SLmv7DivfNa"
          "blockstream.txt" (some 200)).1.head?
          = some (.networkGet
              (blockstream_url "1A1zP1eP5QGefi2DMPTfTL5SLmv7DivfNa")))
    ∧ blockstream_fetch "0xAbC123" "blockstream.txt" (some 200) = ([], true) :=
  ⟨(C10_blockstream_assert _ _ _).1 (by decide),
    (C10_blockstream_assert _ _ _).2 (by decide)⟩

/-! ### Well-formedness of the data file (claim C8)

The spec side: the file is one textual structure opened by a brace line,
closed by a brace line, with every entry in between a single line of the
form "  '<address>': <value>," whose value is either a quoted status string
or the nested map literal with btc_addrs and title keys. -/

/-- A value string that is a quoted status string. -/
def isQuotedVal (v : String) : Prop := ∃ inner, v = "'" ++ inner ++ "'"

/-- A value string that is the nested map literal with a btc_addrs list and
a quoted title. -/
def isMapVal (v : String) : Prop :=
  ∃ a t, v = "\x7b'btc_addrs': [" ++ a ++ "], 'title': '" ++ t ++ "'\x7d"

/-- A string of the entry form the spec describes. -/
def isEntryLine (l : String) : Prop :=
  ∃ a v, l = "  '" ++ a ++ "': " ++ v ++ ",\n" ∧ (isQuotedVal v ∨ isMapVal v)

/-- A string that is exactly one line: a newline-free body plus a final
newline. -/
def isOneLine (l : String) : Prop :=
  ∃ body, l = body ++ "\n" ∧ '\n' ∉ body.data

/-- A string with no embedded newline (Bool form for concrete checking). -/
def cleanStr (s : String) : Bool := decide ('\n' ∉ s.data)

/-- Newline-freeness of a record's variable parts.  Success titles are
passed through cleanupTitle by the crawler, which already removes newlines,
and the btc address strings and exception kind names are newline-free by
construction; the hypothesis keeps the model honest for arbitrary inputs. -/
def recordValClean : RecordVal → Bool
  | .success btcs title => btcs.all cleanStr && cleanStr title
  | .exn k => cleanStr k
  | .v2 => true
  | .httpError _ => true

theorem str_data_append (s t : String) : (s ++ t).data = s.data ++ t.data := by
  cases s; cases t; rfl

theorem str_append_assoc (a b c : String) : a ++ b ++ c = a ++ (b ++ c) := by
  cases a with
  | mk x =>
    cases b with
    | mk y =>
      cases c with
      | mk z => exact congrArg String.mk (List.append_assoc x y z)

theorem char_mem_str_append (c : Char) (s t : String) :
    c ∈ (s ++ t).data ↔ c ∈ s.data ∨ c ∈ t.data := by
  rw [str_data_append]; exact List.mem_append

theorem digitChar_ne_newline (n : Nat) : Nat.digitChar n ≠ '\n' := by
  by_cases h : n < 16
  · interval_cases n <;> decide
  · have e : Nat.digitChar n = '*' := by
      delta Nat.digitChar
      rw [if_neg (by omega : ¬ n = 0), if_neg (by omega : ¬ n = 1),
        if_neg (by omega : ¬ n = 2), if_neg (by omega : ¬ n = 3),
        if_neg (by omega : ¬ n = 4), if_neg (by omega : ¬ n = 5),
        if_neg (by omega : ¬ n = 6), if_neg (by omega : ¬ n = 7),
        if_neg (by omega : ¬ n = 8), if_neg (by omega : ¬ n = 9),
        if_neg (by omega : ¬ n = 10), if_neg (by omega : ¬ n = 11),
        if_neg (by omega : ¬ n = 12), if_neg (by omega : ¬ n = 13),
        if_neg (by omega : ¬ n = 14), if_neg (by omega : ¬ n = 15)]
    rw [e]; decide

theorem toDigitsCore_ne_newline (b : Nat) :
    ∀ (fuel n : Nat) (ds : List Char), (∀ c ∈ ds, c ≠ '\n') →
      ∀ c ∈ Nat.toDigitsCore b fuel n ds, c ≠ '\n' := by
  intro fuel
  induction fuel with
  | zero =>
    intro n ds h c hc
    simp only [Nat.toDigitsCore] at hc
    exact h c hc
  | succ f ih =>
    intro n ds h c hc
    simp only [Nat.toDigitsCore] at hc
    have hds : ∀ x ∈ Nat.digitChar (n % b) :: ds, x ≠ '\n' := by
      intro x hx
      rcases List.mem_cons.mp hx with rfl | hx'
      · exact digitChar_ne_newline _
      · exact h x hx'
    split at hc
    · exact hds c hc
    · exact ih _ _ hds c hc

theorem natRepr_ne_newline (n : Nat) : '\n' ∉ (Nat.repr n).data := by
  intro hmem
  exact toDigitsCore_ne_newline 10 (n + 1) n [] (by simp) '\n' hmem rfl

theorem commaSep_ne_newline (l : List String)
    (h : ∀ s ∈ l, '\n' ∉ s.data) : '\n' ∉ (commaSep l).data := by
  induction l with
  | nil => simp [commaSep]
  | cons a rest ih =>
    cases rest with
    | nil => simpa [commaSep] using h a (by simp)
    | cons b r =>
      rw [commaSep]
      intro hmem
      rcases (char_mem_str_append _ _ _).mp hmem with hm | hm
      · rcases (char_mem_str_append _ _ _).mp hm with hm' | hm'
        · exact h a (by simp) hm'
        · exact absurd hm' (by decide)
      · exact ih (fun s hs => h s (List.mem_cons_of_mem _ hs)) hm

theorem valStr_ne_newline (v : RecordVal) (hv : recordValClean v = true) :
    '\n' ∉ (valStr v).data := by
  cases v with
  | success btcs title =>
    simp only [recordValClean, Bool.and_eq_true, List.all_eq_true,
      cleanStr, decide_eq_true_eq] at hv
    have hc : ∀ s ∈ btcs.map pyQuote, '\n' ∉ s.data := by
      intro s hs
      rcases List.mem_map.mp hs with ⟨x, hx, rfl⟩
      simp only [pyQuote]
      intro hm
      rcases (char_mem_str_append _ _ _).mp hm with hm' | hm'
      · rcases (char_mem_str_append _ _ _).mp hm' with hm'' | hm''
        · exact absurd hm'' (by decide)
        · exact hv.1 x hx hm''
      · exact absurd hm' (by decide)
    simp only [valStr]
    intro hm
    rcases (char_mem_str_append _ _ _).mp hm with hm1 | hm1
    · rcases (char_mem_str_append _ _ _).mp hm1 with hm2 | hm2
      · rcases (char_mem_str_append _ _ _).mp hm2 with hm3 | hm3
        · rcases (char_mem_str_append _ _ _).mp hm3 with hm4 | hm4
          · exact absurd hm4 (by decide)
          · exact commaSep_ne_newline _ hc hm4
        · exact absurd hm3 (by decide)
      · exact hv.2 hm2
    · exact absurd hm1 (by decide)
  | v2 => decide
  | exn k =>
    simp only [recordValClean, cleanStr, decide_eq_true_eq] at hv
    simp only [valStr]
    intro hm
    rcases (char_mem_str_append _ _ _).mp hm with hm1 | hm1
    · rcases (char_mem_str_append _ _ _).mp hm1 with hm2 | hm2
      · exact absurd hm2 (by decide)
      · exact hv hm2
    · exact absurd hm1 (by decide)
  | httpError c =>
    simp only [valStr]
    intro hm
    rcases (char_mem_str_append _ _ _).mp hm with hm1 | hm1
    · rcases (char_mem_str_append _ _ _).mp hm1 with hm2 | hm2
      · exact absurd hm2 (by decide)
      · exact natRepr_ne_newline c hm2
    · exact absurd hm1 (by decide)

theorem entryLine_eq (addr : String) (v : RecordVal) :
    entryLine addr v
      = ("  '" ++ addr ++ "': " ++ valStr v ++ ",") ++ "\n" := by
  unfold entryLine
  conv_rhs => rw [str_append_assoc]
  rfl

theorem entryLine_wellFormed (addr : String) (v : RecordVal) :
    isEntryLine (entryLine addr v) := by
  refine ⟨addr, valStr v, rfl, ?_⟩
  cases v with
  | success btcs title =>
    exact Or.inr ⟨commaSep (btcs.map pyQuote), title, rfl⟩
  | v2 => exact Or.inl ⟨"V2 address (deprecated)", by decide⟩
  | exn k =>
    refine Or.inl ⟨"Exception: " ++ k, ?_⟩
    have h1 : ("'Exception: " : String) ++ k
        = "'" ++ ("Exception: " ++ k) := by
      rw [← str_append_assoc]
      rfl
    exact congrArg (fun x => x ++ "'") h1
  | httpError c =>
    refine Or.inl ⟨"HTTP error: " ++ Nat.repr c, ?_⟩
    have h1 : ("'HTTP error: " : String) ++ Nat.repr c
        = "'" ++ ("HTTP error: " ++ Nat.repr c) := by
      rw [← str_append_assoc]
      rfl
    exact congrArg (fun x => x ++ "'") h1

theorem entryLine_oneLine (addr : String) (v : RecordVal)
    (ha : cleanStr addr = true) (hv : recordValClean v = true) :
    isOneLine (entryLine addr v) := by
  refine ⟨"  '" ++ addr ++ "': " ++ valStr v ++ ",", entryLine_eq addr v, ?_⟩
  have h1 : '\n' ∉ addr.data := by
    simpa [cleanStr] using ha
  have h2 := valStr_ne_newline v hv
  intro hm
  rcases (char_mem_str_append _ _ _).mp hm with hm1 | hm1
  · rcases (char_mem_str_append _ _ _).mp hm1 with hm2 | hm2
    · rcases (char_mem_str_append _ _ _).mp hm2 with hm3 | hm3
      · rcases (char_mem_str_append _ _ _).mp hm3 with hm4 | hm4
        · exact absurd hm4 (by decide)
        · exact h1 hm4
      · exact absurd hm3 (by decide)
    · exact h2 hm2
  · exact absurd hm1 (by decide)

theorem foldl_append_data (l : List String) (acc : String) :
    (l.foldl (fun r s => r ++ s) acc).data
      = acc.data ++ (l.map String.data).flatten := by
  induction l generalizing acc with
  | nil => simp
  | cons a rest ih =>
    simp only [List.foldl_cons, List.map_cons, List.flatten_cons]
    rw [ih, str_data_append]
    simp [List.append_assoc]

theorem join_data (l : List String) :
    (String.join l).data = (l.map String.data).flatten := by
  unfold String.join
  rw [foldl_append_data]
  rfl

/-- Claim C8: over a complete fresh run with graceful shutdown the data file
is the opening brace line, then the record entries, then the closing brace
line; and every entry written in between is one single line of the form
"  '<address>': <value>," with <value> either the nested map literal with
btc_addrs and title keys or a quoted status string. -/
theorem C8_data_file_wellformed (entries : List (String × RecordVal))
    (h : ∀ e ∈ entries, cleanStr e.1 = true ∧ recordValClean e.2 = true) :
    (data_file_contents entries).data
      = '\x7b' :: '\n' ::
          (((entries.map fun e => entryLine e.1 e.2).map String.data).flatten
            ++ ['\x7d', '\n'])
    ∧ ∀ e ∈ entries,
        isEntryLine (entryLine e.1 e.2) ∧ isOneLine (entryLine e.1 e.2) := by
  constructor
  · unfold data_file_contents
    rw [str_data_append, str_data_append, join_data, List.append_assoc]
    rfl
  · intro e he
    exact ⟨entryLine_wellFormed e.1 e.2,
      entryLine_oneLine e.1 e.2 (h e he).1 (h e he).2⟩

/-- A concrete run trace with one entry of each record kind. -/
def c8SampleEntries : List (String × RecordVal) :=
  [("http://aaaa.onion",
      .success ["1A1zP1eP5QGefi2DMPTfTL5SLmv7DivfNa"] "Test"),
   ("http://bbbb.onion", .httpError 404),
   ("http://cccc.onion", .exn "ConnectionError"),
   ("http://dddd.onion", .v2)]

/-- Claim C8 witness: the well-formedness theorem applied to the concrete
four-entry run trace. -/
theorem C8_data_file_wellformed_witness :
    (∀ e ∈ c8SampleEntries, cleanStr e.1 = true ∧ recordValClean e.2 = true)
    ∧ ((data_file_contents c8SampleEntries).data
        = '\x7b' :: '\n' ::
            (((c8SampleEntries.map fun e => entryLine e.1 e.2).map
                String.data).flatten ++ ['\x7d', '\n'])
      ∧ ∀ e ∈ c8SampleEntries,
          isEntryLine (entryLine e.1 e.2) ∧ isOneLine (entryLine e.1 e.2)) :=
  ⟨by decide, C8_data_file_wellformed _ (by decide)⟩

end Venom
